import Mathlib

/-!
Verification development for the reddit-ideas-scanner repository.

The Python modules `extractor.py`, `llm_assessor.py`, `storage.py` and
`pipeline.py` are shallowly embedded as executable Lean definitions.
Real numbers of the source (scores) are modelled as rationals, machine
integers as `Int`/`Nat`, strings as Lean `String` (with `List Char`
used internally where splitting and truncation is involved), raised
exceptions as the `Except` monad, and the SQLite tables of `storage.py`
as in-memory lists of rows.  The side effects the pipeline performs on
external collaborators (HTTP fetches, CSV and report writes, notifier
calls) are recorded in an explicit event trace so that theorems can
speak about which calls a run performs and with which arguments.

The heuristic numeric scorer `score_post` uses base-10 logarithms over
IEEE floats; it is passed to the extraction logic as an abstract
function `RedditPost → ℚ × List String`, exactly as the extraction,
storage and pipeline claims quantify over its results.  All other
logic of the extractor is embedded concretely.
-/

namespace RedditScan

/-- A raised Python exception: the exception class name and its text. -/
structure Exc where
  excName : String
  excText : String
deriving DecidableEq, Repr

/-- Round a rational to the nearest integer, ties to even — the rounding
used by Python's built-in `round`. -/
def roundHalfEven (q : ℚ) : ℤ :=
  let f : ℤ := Int.floor q
  if q - f < 1/2 then f
  else if q - f > 1/2 then f + 1
  else if f % 2 = 0 then f else f + 1

/-- Python's `round(q, ndigits)` on exact rationals. -/
def pyRound (ndigits : Nat) (q : ℚ) : ℚ :=
  (roundHalfEven (q * (10 ^ ndigits)) : ℚ) / (10 ^ ndigits)

/-- The characters stripped by Python's `str.strip()` (ASCII whitespace). -/
def isPySpace (c : Char) : Bool :=
  c == ' ' || c == '\t' || c == '\n' || c == '\r' || c == Char.ofNat 11 || c == Char.ofNat 12

/-- Python `str.strip()` on a character list. -/
def pyStrip (s : List Char) : List Char :=
  ((s.dropWhile isPySpace).reverse.dropWhile isPySpace).reverse

/-- Lower-case a character list (Python `str.lower()` on ASCII text). -/
def toLowerL (s : List Char) : List Char :=
  s.map Char.toLower

/-- Python's substring test `pat in text` on character lists. -/
def containsSub : List Char → List Char → Bool
  | t, p =>
    p.isPrefixOf t ||
      match t with
      | [] => false
      | _ :: rest => containsSub rest p

/-- `_contains_any(text, patterns)` from `extractor.py`. -/
def containsAnyL (text : List Char) (pats : List (List Char)) : Bool :=
  pats.any (fun p => containsSub text p)

/-- The `PAIN_SIGNALS` lexicon from `extractor.py`. -/
def painSignals : List (List Char) :=
  ["problem".data, "issue".data, "frustrat".data, "pain".data, "manual".data,
   "slow".data, "time-consuming".data, "stuck".data]

/-- Sentence delimiters of `re.split(r"[.!?\n]+", text)` in `extractor.py`. -/
def isSentenceDelim (c : Char) : Bool :=
  c == '.' || c == '!' || c == '?' || c == '\n'

/-- Worker for `splitSentences`: `inRun` is whether the previous character
belonged to a delimiter run, `cur` the current piece reversed. -/
def splitRunsAux (inRun : Bool) (cur : List Char) : List Char → List (List Char)
  | [] => [cur.reverse]
  | c :: rest =>
    if isSentenceDelim c then
      if inRun then splitRunsAux true [] rest
      else cur.reverse :: splitRunsAux true [] rest
    else splitRunsAux false (c :: cur) rest

/-- `re.split(r"[.!?\n]+", text)`: split on maximal runs of sentence
delimiters, keeping the (possibly empty) pieces at both ends. -/
def splitSentences (s : List Char) : List (List Char) :=
  splitRunsAux false [] s

/-- A fetched Reddit post (`models.RedditPost`). -/
structure RedditPost where
  post_id : String
  subreddit : String
  title : String
  selftext : String
  permalink : String
  url : String
  author : String
  created_utc : Int
  num_comments : Int
  upvotes : Int
  is_self : Bool
deriving DecidableEq, Repr

/-- An extracted idea (`models.IdeaCandidate`); scores are rationals. -/
structure IdeaCandidate where
  post_id : String
  subreddit : String
  title : String
  problem_summary : String
  solution_hint : String
  relevance_score : ℚ
  reason_tags : List String
  created_utc : Int
  permalink : String
  url : String
  author : String
  num_comments : Int
  upvotes : Int
  llm_profit_score : Option ℚ := none
  llm_confidence : Option ℚ := none
deriving DecidableEq, Repr

/-- The pain-signal scanning loop of `derive_problem_summary`: the first
sentence whose stripped text is non-empty and whose lower-casing contains
a pain signal, returned stripped. -/
def findPainSentence : List (List Char) → Option (List Char)
  | [] => none
  | sent :: rest =>
    let s := pyStrip sent
    if s = [] then findPainSentence rest
    else if containsAnyL (toLowerL s) painSignals then some s
    else findPainSentence rest

/-- `derive_problem_summary(post)` from `extractor.py`. -/
def derive_problem_summary (post : RedditPost) : String :=
  let text := pyStrip post.selftext.data
  if text = [] then String.mk (post.title.data.take 220)
  else
    let sentences := splitSentences text
    match findPainSentence sentences with
    | some s => String.mk (s.take 220)
    | none =>
      let first := pyStrip (sentences.headD [])
      if first = [] then String.mk (post.title.data.take 220)
      else String.mk (first.take 220)

/-- `derive_solution_hint(post, tags)` from `extractor.py`. -/
def derive_solution_hint (post : RedditPost) (tags : List String) : String :=
  let text := toLowerL (post.title.data ++ '\n' :: post.selftext.data)
  if tags.contains "monetization" then
    "Test a lightweight SaaS or template product with recurring pricing."
  else if containsAnyL text ["freelance".data, "client".data, "proposal".data, "invoice".data] then
    "Build a workflow helper for freelancers with automation and reporting."
  else if containsAnyL text ["vibe coding".data, "coding agent".data, "prompt".data, "ai tool".data] then
    "Create an AI-assisted coding utility focused on one repetitive task."
  else if containsAnyL text ["team".data, "manager".data, "meeting".data, "calendar".data] then
    "Package this pain point into a micro-tool that reduces daily coordination work."
  else
    "Validate demand with a small automation tool and a narrow landing page."

/-- The `IdeaCandidate(...)` built from a qualifying post in
`extract_ideas`; `score` abstracts the numeric `score_post` heuristic. -/
def mkIdeaCandidate (score : RedditPost → ℚ × List String) (post : RedditPost) : IdeaCandidate :=
  let st := score post
  { post_id := post.post_id
    subreddit := post.subreddit
    title := post.title
    problem_summary := derive_problem_summary post
    solution_hint := derive_solution_hint post st.2
    relevance_score := pyRound 3 st.1
    reason_tags := st.2
    created_utc := post.created_utc
    permalink := post.permalink
    url := post.url
    author := post.author
    num_comments := post.num_comments
    upvotes := post.upvotes }

/-- The descending comparison of `ideas.sort(key=relevance_score, reverse=True)`. -/
def ideaDescLE (a b : IdeaCandidate) : Bool :=
  decide (b.relevance_score ≤ a.relevance_score)

/-- `extract_ideas(posts, config)` from `extractor.py`: keep the posts whose
heuristic score is not below the minimum, build one candidate per kept post,
and stable-sort by relevance score descending (Python's list sort). -/
def extract_ideas (score : RedditPost → ℚ × List String) (minScore : ℚ)
    (posts : List RedditPost) : List IdeaCandidate :=
  ((posts.filter (fun p => !decide ((score p).1 < minScore))).map (mkIdeaCandidate score)).mergeSort
    ideaDescLE

/-- The Gemini enrichment settings (`config.GeminiConfig`). -/
structure GeminiConfig where
  enabled : Bool
  api_key : String
  model : String
  temperature : ℚ
  max_candidates : Int
  timeout_seconds : Int
deriving DecidableEq, Repr

/-- A parsed enrichment reply (`llm_assessor.GeminiAssessment`). -/
structure GeminiAssessment where
  profit_score : ℚ
  confidence : ℚ
  summary : String
  monetization_hint : String
  reason_tags : List String
deriving DecidableEq, Repr

/-- Python `sorted(set(l))` for string lists: distinct elements in
ascending lexicographic order. -/
def sortedDedup (l : List String) : List String :=
  l.dedup.mergeSort (fun a b => decide (a ≤ b))

/-- The retry loop of `GeminiAssessor._generate_content`: attempts
`1..maxRetries` are tried in order (`attempt i` is the outcome of the
`urlopen`/`json.loads` of the i-th try); the first success is returned,
and when every attempt fails the `RuntimeError` the source raises after
the loop is raised. -/
def generate_content (maxRetries : Nat) (attempt : Nat → Except Exc Unit) : Except Exc Unit :=
  go 1 maxRetries
where
  go (i : Nat) : Nat → Except Exc Unit
    | 0 => .error ⟨"RuntimeError", "Gemini request failed."⟩
    | n + 1 =>
      match attempt i with
      | .ok v => .ok v
      | .error _ => go (i + 1) n

/-- The per-candidate merge of `enrich_ideas_with_gemini` (lines 111-125
of `llm_assessor.py`), applied to a candidate whose assessment succeeded:
replace summary and hint when non-empty, store the rounded LLM fields,
blend the relevance score 35% / 65%, and merge the tag sets. -/
def mergeAssessment (idea : IdeaCandidate) (a : GeminiAssessment) : IdeaCandidate :=
  let idea1 := if a.summary ≠ "" then { idea with problem_summary := a.summary } else idea
  let idea2 :=
    if a.monetization_hint ≠ "" then { idea1 with solution_hint := a.monetization_hint }
    else idea1
  { idea2 with
    llm_profit_score := some (pyRound 2 a.profit_score)
    llm_confidence := some (pyRound 3 a.confidence)
    relevance_score :=
      pyRound 3 (idea2.relevance_score * (35 / 100) + a.profit_score / 10 * (65 / 100))
    reason_tags := sortedDedup (idea2.reason_tags ++ "llm_assessed" :: a.reason_tags) }

/-- The `post_by_id` dictionary lookup of `enrich_ideas_with_gemini`
(a dict comprehension, so the last post with a given id wins). -/
def postById (posts : List RedditPost) (pid : String) : Option RedditPost :=
  posts.reverse.find? (fun p => p.post_id == pid)

/-- The candidate selection of `enrich_ideas_with_gemini` lines 98-100:
sort by relevance descending (Python `sorted`, stable) and take the top
`max(max_candidates, 1)` ideas. -/
def enrichTargets (ideas : List IdeaCandidate) (maxCandidates : Int) : List IdeaCandidate :=
  (ideas.mergeSort ideaDescLE).take (max maxCandidates 1).toNat

/-- The per-candidate loop of `enrich_ideas_with_gemini`: each target is
looked up in `post_by_id` (missing post: skipped), assessed (an
assessment of `none` models `assess` returning `None`: skipped), and
merged on success.  An exception raised by `assess` propagates — the
source has no handler around the loop. -/
def assessTargets (assess : RedditPost → IdeaCandidate → Except Exc (Option GeminiAssessment))
    (posts : List RedditPost) (targets : List IdeaCandidate) :
    Except Exc (List IdeaCandidate) :=
  targets.mapM (fun idea =>
    match postById posts idea.post_id with
    | none => .ok idea
    | some post =>
      match assess post idea with
      | .error e => .error e
      | .ok none => .ok idea
      | .ok (some a) => .ok (mergeAssessment idea a))

/-- `enrich_ideas_with_gemini(ideas, posts, config, assessor)` from
`llm_assessor.py`; `assess` abstracts `GeminiAssessor.assess` (one network
call per candidate). -/
def enrich_ideas_with_gemini
    (assess : RedditPost → IdeaCandidate → Except Exc (Option GeminiAssessment))
    (ideas : List IdeaCandidate) (posts : List RedditPost) (gemini : Option GeminiConfig) :
    Except Exc (List IdeaCandidate) :=
  if ideas.isEmpty then .ok ideas
  else
    match gemini with
    | none => .ok ideas
    | some g =>
      if !g.enabled then .ok ideas
      else
        let sortedIdeas := ideas.mergeSort ideaDescLE
        let targets := enrichTargets ideas g.max_candidates
        match assessTargets assess posts targets with
        | .error e => .error e
        | .ok processed =>
          .ok ((processed ++ sortedIdeas.drop targets.length).mergeSort ideaDescLE)

/-- `",".join(tags)` of `Storage.upsert_ideas`, on character lists. -/
def joinComma : List (List Char) → List Char
  | [] => []
  | [x] => x
  | x :: y :: rest => x ++ ',' :: joinComma (y :: rest)

/-- Prepend a character to the first piece of a split. -/
def consHead (c : Char) : List (List Char) → List (List Char)
  | [] => [[c]]
  | p :: ps => (c :: p) :: ps

/-- Python `s.split(",")`, on character lists: split at every comma. -/
def splitComma : List Char → List (List Char)
  | [] => [[]]
  | c :: rest => if c = ',' then [] :: splitComma rest else consHead c (splitComma rest)

/-- A row of the `posts` table. -/
structure PostRow where
  post : RedditPost
  fetched_utc : Int
deriving DecidableEq, Repr

/-- A row of the `ideas` table; `reason_tags` is the comma-joined TEXT
column, LLM columns are nullable. -/
structure IdeaRow where
  post_id : String
  subreddit : String
  title : String
  problem_summary : String
  solution_hint : String
  relevance_score : ℚ
  reason_tags : List Char
  created_utc : Int
  permalink : String
  url : String
  author : String
  num_comments : Int
  upvotes : Int
  llm_profit_score : Option ℚ
  llm_confidence : Option ℚ
  extracted_utc : Int
deriving DecidableEq, Repr

/-- A row of the `run_logs` table (`storage.RunLog`). -/
structure RunRow where
  run_id : Nat
  period : String
  run_day_utc : String
  run_started_utc : Int
  run_finished_utc : Option Int
  status : String
  fetched_posts : Nat
  extracted_ideas : Nat
  window_ideas : Nat
  email_sent : Bool
  message : String
deriving DecidableEq, Repr

/-- The SQLite database behind `Storage`: the three tables. -/
structure Store where
  posts : List PostRow
  ideas : List IdeaRow
  runLogs : List RunRow
deriving DecidableEq, Repr

/-- The empty freshly-initialised database. -/
def Store.empty : Store := ⟨[], [], []⟩

/-- The parameter row `upsert_ideas` binds for one candidate. -/
def ideaToRow (idea : IdeaCandidate) (extracted : Int) : IdeaRow :=
  { post_id := idea.post_id
    subreddit := idea.subreddit
    title := idea.title
    problem_summary := idea.problem_summary
    solution_hint := idea.solution_hint
    relevance_score := idea.relevance_score
    reason_tags := joinComma (idea.reason_tags.map String.data)
    created_utc := idea.created_utc
    permalink := idea.permalink
    url := idea.url
    author := idea.author
    num_comments := idea.num_comments
    upvotes := idea.upvotes
    llm_profit_score := idea.llm_profit_score
    llm_confidence := idea.llm_confidence
    extracted_utc := extracted }

/-- The `IdeaCandidate` materialised from a row by `get_ideas_since`:
the tag column is split on commas and empty tags are dropped. -/
def rowToIdea (r : IdeaRow) : IdeaCandidate :=
  { post_id := r.post_id
    subreddit := r.subreddit
    title := r.title
    problem_summary := r.problem_summary
    solution_hint := r.solution_hint
    relevance_score := r.relevance_score
    reason_tags := ((splitComma r.reason_tags).filter (fun t => t ≠ [])).map String.mk
    created_utc := r.created_utc
    permalink := r.permalink
    url := r.url
    author := r.author
    num_comments := r.num_comments
    upvotes := r.upvotes
    llm_profit_score := r.llm_profit_score
    llm_confidence := r.llm_confidence }

/-- `INSERT ... ON CONFLICT(post_id) DO UPDATE` for one ideas row. -/
def upsertOneIdea (rows : List IdeaRow) (row : IdeaRow) : List IdeaRow :=
  if rows.any (fun r => r.post_id == row.post_id) then
    rows.map (fun r => if r.post_id == row.post_id then row else r)
  else rows ++ [row]

/-- `Storage.upsert_ideas(ideas, extracted_utc)`. -/
def upsert_ideas (s : Store) (ideas : List IdeaCandidate) (extracted : Int) : Store :=
  { s with ideas := ideas.foldl (fun rows i => upsertOneIdea rows (ideaToRow i extracted)) s.ideas }

/-- `INSERT ... ON CONFLICT(post_id) DO UPDATE` for one posts row. -/
def upsertOnePost (rows : List PostRow) (row : PostRow) : List PostRow :=
  if rows.any (fun r => r.post.post_id == row.post.post_id) then
    rows.map (fun r => if r.post.post_id == row.post.post_id then row else r)
  else rows ++ [row]

/-- `Storage.upsert_posts(posts, fetched_utc)`. -/
def upsert_posts (s : Store) (posts : List RedditPost) (fetched : Int) : Store :=
  { s with posts := posts.foldl (fun rows p => upsertOnePost rows ⟨p, fetched⟩) s.posts }

/-- The `ORDER BY relevance_score DESC, created_utc DESC` comparison of
`get_ideas_since`. -/
def ideaRowDescLE (a b : IdeaRow) : Bool :=
  decide (b.relevance_score < a.relevance_score) ||
    (a.relevance_score == b.relevance_score && decide (b.created_utc ≤ a.created_utc))

/-- `Storage.get_ideas_since(created_utc_floor)`. -/
def get_ideas_since (s : Store) (floor : Int) : List IdeaCandidate :=
  ((s.ideas.filter (fun r => decide (floor ≤ r.created_utc))).mergeSort ideaRowDescLE).map rowToIdea

/-- The next `AUTOINCREMENT` run id: one more than the largest id ever
issued (run rows are never deleted). -/
def nextRunId (s : Store) : Nat :=
  (s.runLogs.foldr (fun r acc => max r.run_id acc) 0) + 1

/-- `Storage.start_run(period, run_day_utc, run_started_utc)`: insert a
fresh `started` row and return its id. -/
def start_run (s : Store) (period day : String) (started : Int) : Store × Nat :=
  let rid := nextRunId s
  ({ s with runLogs := s.runLogs ++ [⟨rid, period, day, started, none, "started", 0, 0, 0, false, ""⟩] },
    rid)

/-- `Storage.finish_run(...)`: the single terminal UPDATE of a run row. -/
def finish_run (s : Store) (rid : Nat) (status : String) (finished : Int)
    (fetchedPosts extractedIdeas windowIdeas : Nat) (emailSent : Bool) (msg : String) : Store :=
  { s with
    runLogs := s.runLogs.map (fun r =>
      if r.run_id == rid then
        { r with
          run_finished_utc := some finished
          status := status
          fetched_posts := fetchedPosts
          extracted_ideas := extractedIdeas
          window_ideas := windowIdeas
          email_sent := emailSent
          message := msg }
      else r) }

/-- `Storage.has_successful_run_on_day(period, run_day_utc)`. -/
def has_successful_run_on_day (s : Store) (period day : String) : Bool :=
  s.runLogs.any (fun r => r.period == period && r.run_day_utc == day && r.status == "success")

/-- Strict comparison on the `(run_finished_utc, run_started_utc)` sort key
of `get_latest_successful_run`; SQL NULL sorts below every integer. -/
def runKeyLt (a b : RunRow) : Bool :=
  (match a.run_finished_utc, b.run_finished_utc with
   | none, none => false
   | none, some _ => true
   | some _, none => false
   | some x, some y => decide (x < y)) ||
    (a.run_finished_utc == b.run_finished_utc && decide (a.run_started_utc < b.run_started_utc))

/-- The `ORDER BY run_finished_utc DESC, run_started_utc DESC LIMIT 1`
selection: a row of maximal key among the candidates. -/
def pickLatest : List RunRow → Option RunRow
  | [] => none
  | r :: rest =>
    match pickLatest rest with
    | none => some r
    | some best => if runKeyLt r best then some best else some r

/-- The Python materialisation `int(v) if v else None` of the nullable
finish column: both NULL and 0 become `None`. -/
def truthyFinished : Option Int → Option Int
  | none => none
  | some v => if v = 0 then none else some v

/-- `Storage.get_latest_successful_run(period)`. -/
def get_latest_successful_run (s : Store) (period : String) : Option RunRow :=
  match pickLatest (s.runLogs.filter (fun r => r.period == period && r.status == "success")) with
  | none => none
  | some r => some { r with run_finished_utc := truthyFinished r.run_finished_utc }

/-- The configuration fields `run_once` reads (`config.AppConfig`);
directories are path strings, notifier channel configs are reduced to
what the pipeline observes through `build_notifier`. -/
structure AppConfig where
  subreddits : List String
  lookback_hours : Int
  max_posts_per_subreddit : Int
  min_score : ℚ
  report_top_n : Int
  output_dir : String
  gemini : Option GeminiConfig
deriving Repr

/-- A `datetime` as the pipeline consumes it: its integer timestamp and
its two `strftime` renderings (UTC day string and file-name stamp). -/
structure PyTime where
  ts : Int
  day : String
  stamp : String
deriving DecidableEq, Repr

/-- The status and counters `run_once` returns (`pipeline.RunResult`). -/
structure RunResult where
  status : String
  fetched_posts : Nat
  extracted_ideas : Nat
  window_ideas : Nat
  started_utc : Int
  finished_utc : Int
  csv_path : Option String
  report_path : Option String
  email_sent : Bool
  message : String
deriving DecidableEq, Repr

/-- An external call performed by a run, with its arguments: the
side-effect trace of one `run_once` invocation.  `enrichCall` would mark
an invocation of the LLM enrichment merger. -/
inductive Event where
  | fetchCall (subreddit : String) (sinceUtc : Int) (maxPosts : Int)
  | csvWrite (ideas : List IdeaCandidate) (path : String)
  | reportWrite (ideas : List IdeaCandidate) (path : String)
  | notifyCall (subject body path : String)
  | enrichCall
deriving DecidableEq, Repr

/-- The external collaborators of the pipeline: the Reddit client, the
CSV/report writers, the notifier channel, pure formatting helpers, and
the abstracted numeric heuristic `score_post`. -/
structure World where
  client : String → Int → Int → Except Exc (List RedditPost)
  exportCsv : List IdeaCandidate → String → Except Exc Unit
  render : List IdeaCandidate → String → PyTime → Int → String
  writeReport : String → String → Except Exc Unit
  notify : String → String → String → Except Exc Unit
  formatTs : Int → String
  isoTs : Int → String
  scorePost : RedditPost → ℚ × List String

/-- `period.lower().strip()` at the top of `run_once`. -/
def normalizePeriod (s : String) : String :=
  String.mk (pyStrip (toLowerL s.data))

/-- `period.title()` used in the notification subject: capitalise the
first letter of each alphabetic run. -/
def pyTitle (s : String) : String :=
  String.mk ((s.data.foldl
    (fun st c =>
      if c.isAlpha then
        (if st.2 then st.1 ++ [c.toLower] else st.1 ++ [c.toUpper], true)
      else (st.1 ++ [c], false))
    (([] : List Char), false)).1)

/-- The fetch loop of `run_once` (lines 88-95): one client call per
configured subreddit, results concatenated in order; an exception from
a call aborts the loop. -/
def fetchAll (client : String → Int → Int → Except Exc (List RedditPost))
    (subs : List String) (floor : Int) (maxPosts : Int) :
    List Event × Except Exc (List RedditPost) :=
  match subs with
  | [] => ([], .ok [])
  | sr :: rest =>
    match client sr floor maxPosts with
    | .error e => ([.fetchCall sr floor maxPosts], .error e)
    | .ok ps =>
      let out := fetchAll client rest floor maxPosts
      (.fetchCall sr floor maxPosts :: out.1,
        match out.2 with
        | .error e => .error e
        | .ok rest' => .ok (ps ++ rest'))

/-- The data a successful run body hands to `finish_run`. -/
structure BodyOk where
  fetched : Nat
  ideasCount : Nat
  window : List IdeaCandidate
  csvPath : String
  reportPath : String
  emailSent : Bool
deriving DecidableEq, Repr

/-- Lines 97-125 of `run_once`: persist posts, extract and persist ideas,
query the reporting window, write the CSV and the report, and notify when
an effective notifier exists.  Returns the trace of external calls, the
store (upserts persist even when a later step raises), and the outcome. -/
def afterFetch (cfg : AppConfig) (world : World) (notifierPresent : Bool) (p : String)
    (now : PyTime) (floor : Int) (posts : List RedditPost) (s1 : Store) :
    List Event × Store × Except Exc BodyOk :=
  let s2 := upsert_posts s1 posts now.ts
  let ideas := extract_ideas world.scorePost cfg.min_score posts
  let s3 := upsert_ideas s2 ideas now.ts
  let window := get_ideas_since s3 floor
  let csvPath := cfg.output_dir ++ "/ideas_" ++ p ++ "_" ++ now.stamp ++ ".csv"
  let reportPath := cfg.output_dir ++ "/report_" ++ p ++ "_" ++ now.stamp ++ ".md"
  match world.exportCsv window csvPath with
  | .error e => ([.csvWrite window csvPath], s3, .error e)
  | .ok _ =>
    let reportText := world.render window p now cfg.report_top_n
    match world.writeReport reportText reportPath with
    | .error e => ([.csvWrite window csvPath, .reportWrite window reportPath], s3, .error e)
    | .ok _ =>
      if notifierPresent then
        let subject := "Reddit Ideas " ++ pyTitle p ++ " Report"
        let summary :=
          "Collected ideas since " ++ world.isoTs floor ++ ".\n" ++
            "Posts checked: " ++ toString posts.length ++ ".\n" ++
            "Newly extracted in this run: " ++ toString ideas.length ++ ".\n" ++
            "Report: " ++ reportPath
        match world.notify subject summary reportPath with
        | .error e =>
          ([.csvWrite window csvPath, .reportWrite window reportPath,
            .notifyCall subject summary reportPath], s3, .error e)
        | .ok _ =>
          ([.csvWrite window csvPath, .reportWrite window reportPath,
            .notifyCall subject summary reportPath], s3,
            .ok ⟨posts.length, ideas.length, window, csvPath, reportPath, true⟩)
      else
        ([.csvWrite window csvPath, .reportWrite window reportPath], s3,
          .ok ⟨posts.length, ideas.length, window, csvPath, reportPath, false⟩)

/-- The body of the `try:` block of `run_once` (fetch, then everything
after the fetch). -/
def runBody (cfg : AppConfig) (world : World) (notifierPresent : Bool) (p : String)
    (now : PyTime) (floor : Int) (s1 : Store) :
    List Event × Store × Except Exc BodyOk :=
  match fetchAll world.client cfg.subreddits floor cfg.max_posts_per_subreddit with
  | (evs, .error e) => (evs, s1, .error e)
  | (evs, .ok posts) =>
    let out := afterFetch cfg world notifierPresent p now floor posts s1
    (evs ++ out.1, out.2.1, out.2.2)

/-- The outcome of one `run_once` invocation: the database afterwards,
the trace of external calls, and the returned result or raised exception. -/
structure RunOutcome where
  store : Store
  trace : List Event
  result : Except Exc RunResult
deriving Repr

/-- The effective fetch floor computed by `run_once` lines 77-82. -/
def effectiveFloor (s1 : Store) (p : String) (startedUtc lookbackSeconds : Int) : Int :=
  match get_latest_successful_run s1 p with
  | none => startedUtc - lookbackSeconds
  | some latest =>
    match latest.run_finished_utc with
    | none => startedUtc - lookbackSeconds
    | some t => if startedUtc - t ≤ lookbackSeconds then t else startedUtc - lookbackSeconds

/-- `pipeline.run_once(config, period, reddit_client, notifier, now)`.
`notifierPresent` is whether `notifier or build_notifier(config)` yields a
notifier.  The store plays the role of the SQLite file. -/
def run_once (cfg : AppConfig) (period : String) (world : World) (notifierPresent : Bool)
    (now : PyTime) (s : Store) : RunOutcome :=
  let p := normalizePeriod period
  if !(p == "daily" || p == "weekly") then
    ⟨s, [], .error ⟨"ValueError", "period must be either daily or weekly"⟩⟩
  else
    let startedUtc := now.ts
    let runDay := now.day
    let lookbackSeconds := max cfg.lookback_hours 1 * 60 * 60
    let st := start_run s p runDay startedUtc
    let s1 := st.1
    let runId := st.2
    if has_successful_run_on_day s1 p runDay then
      let msg := "Skipped duplicate " ++ p ++ " run for UTC day " ++ runDay ++ "."
      ⟨finish_run s1 runId "skipped_same_day" now.ts 0 0 0 false msg, [],
        .ok ⟨"skipped_same_day", 0, 0, 0, startedUtc, now.ts, none, none, false, msg⟩⟩
    else
      let floor := effectiveFloor s1 p startedUtc lookbackSeconds
      match runBody cfg world notifierPresent p now floor s1 with
      | (evs, s2, .error e) =>
        let msg := e.excName ++ ": " ++ e.excText
        ⟨finish_run s2 runId "failed" now.ts 0 0 0 false msg, evs, .error e⟩
      | (evs, s2, .ok b) =>
        let msg := "Success. Lookback started at " ++ world.formatTs floor
        ⟨finish_run s2 runId "success" now.ts b.fetched b.ideasCount b.window.length
            b.emailSent msg, evs,
          .ok ⟨"success", b.fetched, b.ideasCount, b.window.length, startedUtc, now.ts,
            some b.csvPath, some b.reportPath, b.emailSent, msg⟩⟩

/-! Claim-side definitions: restatements, in the specification's words, of
rules the pipeline is claimed to implement; each is compared against the
behaviour of the source-derived definitions above. -/

/-- The fetch floor as the specification words it, with the lookback
window in seconds passed explicitly: if the latest successful run of the
period has finish time `t` and the gap from the run start is at most the
window, the floor is `t`; otherwise it is start minus the window. -/
def specFetchFloor (s : Store) (period : String) (startedUtc lookbackSeconds : Int) : Int :=
  match get_latest_successful_run s period with
  | some r =>
    match r.run_finished_utc with
    | some t =>
      if startedUtc - t ≤ lookbackSeconds then t else startedUtc - lookbackSeconds
    | none => startedUtc - lookbackSeconds
  | none => startedUtc - lookbackSeconds

/-- The fetch floor exactly as claim C2 words it: the lookback window is
`lookbackHours * 3600` seconds, with no lower clamp. -/
def claimFetchFloor (s : Store) (period : String) (startedUtc lookbackHours : Int) : Int :=
  specFetchFloor s period startedUtc (lookbackHours * 3600)

/-- The problem-summary rule exactly as claim C8 words it: empty body
gives the title; otherwise the first pain-signal sentence; otherwise the
first NON-EMPTY sentence of the body; otherwise the title — each
truncated to 220 characters. -/
def claimProblemSummary (post : RedditPost) : String :=
  let text := pyStrip post.selftext.data
  if text = [] then String.mk (post.title.data.take 220)
  else
    let sentences := splitSentences text
    match findPainSentence sentences with
    | some s => String.mk (s.take 220)
    | none =>
      match sentences.find? (fun sent => !(pyStrip sent).isEmpty) with
      | some sent => String.mk ((pyStrip sent).take 220)
      | none => String.mk (post.title.data.take 220)

/-- The problem-summary rule as claim C8 must be amended: the fallback is
the FIRST sentence of the split (stripped) when that is non-empty, not the
first non-empty sentence. -/
def amendedProblemSummary (post : RedditPost) : String :=
  let text := pyStrip post.selftext.data
  if text = [] then String.mk (post.title.data.take 220)
  else
    let sentences := splitSentences text
    match findPainSentence sentences with
    | some s => String.mk (s.take 220)
    | none =>
      match sentences with
      | [] => String.mk (post.title.data.take 220)
      | first :: _ =>
        if pyStrip first = [] then String.mk (post.title.data.take 220)
        else String.mk ((pyStrip first).take 220)

/-! Concrete fixtures used by witnesses and counterexamples. -/

/-- A qualifying fixture post. -/
def postFix : RedditPost :=
  ⟨"x1", "vibecoding", "Tool idea to automate bug triage", "This process is slow.",
    "https://r/x1", "https://r/x1", "u1", 950, 12, 40, true⟩

/-- A second fixture post. -/
def postFix2 : RedditPost :=
  ⟨"x2", "vibecoding", "Second idea", "Some text here.",
    "https://r/x2", "https://r/x2", "u2", 960, 3, 5, true⟩

/-- A happy-path external world: one post fetched, all writes and the
notifier succeed, a fixed heuristic score. -/
def worldFix : World :=
  { client := fun _ _ _ => .ok [postFix]
    exportCsv := fun _ _ => .ok ()
    render := fun _ _ _ _ => "report"
    writeReport := fun _ _ => .ok ()
    notify := fun _ _ _ => .ok ()
    formatTs := fun _ => "ts"
    isoTs := fun _ => "iso"
    scorePost := fun _ => (4, ["pain_point"]) }

/-- The same world with a Reddit client whose fetch raises. -/
def worldFailFix : World :=
  { worldFix with client := fun _ _ _ => .error ⟨"HTTPError", "boom"⟩ }

/-- A baseline fixture configuration (168h lookback, no enrichment). -/
def cfgFix : AppConfig := ⟨["vibecoding"], 168, 10, 2, 10, "out", none⟩

/-- The fixture configuration with `lookback_hours = 0`. -/
def cfgLb0Fix : AppConfig := { cfgFix with lookback_hours := 0 }

/-- The fixture configuration with enrichment enabled and credentialed. -/
def cfgGemFix : AppConfig :=
  { cfgFix with gemini := some ⟨true, "key", "gemini-2.5-flash-lite", 1/5, 2, 20⟩ }

/-- A fixture run time on the day of the recorded success. -/
def timeFix : PyTime := ⟨1000, "2026-02-12", "20260212_120000"⟩

/-- A fixture run time on the following day. -/
def timeFix2 : PyTime := ⟨2000, "2026-02-13", "20260213_120000"⟩

/-- A store holding one successful `daily` run finished at 1000 on
2026-02-12. -/
def storePrevFix : Store :=
  ⟨[], [], [⟨1, "daily", "2026-02-12", 990, some 1000, "success", 1, 1, 1, true, "ok"⟩]⟩

/-- A fixture idea with relevance score 4 and prior tag `pain_point`. -/
def ideaFix : IdeaCandidate :=
  { post_id := "x1"
    subreddit := "vibecoding"
    title := "Tool idea to automate bug triage"
    problem_summary := "old summary"
    solution_hint := "old hint"
    relevance_score := 4
    reason_tags := ["pain_point"]
    created_utc := 950
    permalink := "https://r/x1"
    url := "https://r/x1"
    author := "u1"
    num_comments := 12
    upvotes := 40 }

/-- A second fixture idea with a lower relevance score. -/
def ideaFix2 : IdeaCandidate :=
  { ideaFix with
    post_id := "x2"
    title := "Second idea"
    relevance_score := 3
    created_utc := 960 }

/-- A fixture idea whose single reason tag contains a comma. -/
def ideaCommaFix : IdeaCandidate :=
  { ideaFix with reason_tags := ["a,b"] }

/-- A fixture enrichment reply with profit score 82. -/
def assessFix : GeminiAssessment :=
  ⟨82, 74/100, "LLM summary", "Charge monthly.", ["llm_real_pain", "llm_pays_signal"]⟩

/-- A fixture post whose body starts with a sentence delimiter, so the
first split sentence is empty and no sentence carries a pain signal. -/
def postBangFix : RedditPost :=
  ⟨"b1", "s", "TitleX", "!Great weather today", "pl", "pl", "u", 0, 0, 0, true⟩

/-- An assessor whose network call fails on every retry: it propagates the
`RuntimeError` that `_generate_content` raises after exhausting its three
attempts. -/
def assessNetFail (_ : RedditPost) (_ : IdeaCandidate) : Except Exc (Option GeminiAssessment) :=
  match generate_content 3 (fun _ => .error ⟨"URLError", "connection refused"⟩) with
  | .error e => .error e
  | .ok _ => .ok none

/-! Helper lemmas. -/

/-- The descending idea comparison is transitive. -/
theorem ideaDescLE_trans (a b c : IdeaCandidate) :
    ideaDescLE a b → ideaDescLE b c → ideaDescLE a c := by
  simp only [ideaDescLE, decide_eq_true_eq]
  exact fun h1 h2 => le_trans h2 h1

/-- The descending idea comparison is total. -/
theorem ideaDescLE_total (a b : IdeaCandidate) : ideaDescLE a b || ideaDescLE b a := by
  simp only [ideaDescLE, Bool.or_eq_true, decide_eq_true_eq]
  exact le_total b.relevance_score a.relevance_score

/-! C6: the enrichment merge blend. -/

/-- C6 — for every candidate that receives a valid enrichment result with
profit score P and prior relevance score S, the merge sets the relevance
score to `round(S * 0.35 + (P / 10) * 0.65, 3)`, and the merged tag list
contains `llm_assessed` together with every tag of the enrichment reply;
in particular prior score 4 with profit score 82 yields exactly 6.73. -/
theorem mergeAssessment_blend :
    (∀ (idea : IdeaCandidate) (a : GeminiAssessment),
      (mergeAssessment idea a).relevance_score =
        pyRound 3 (idea.relevance_score * (35 / 100) + a.profit_score / 10 * (65 / 100)) ∧
      "llm_assessed" ∈ (mergeAssessment idea a).reason_tags ∧
      ∀ t ∈ a.reason_tags, t ∈ (mergeAssessment idea a).reason_tags) ∧
    (mergeAssessment ideaFix assessFix).relevance_score = 673 / 100 := by
  constructor
  · intro idea a
    refine ⟨?_, ?_, ?_⟩
    · unfold mergeAssessment
      split <;> split <;> rfl
    · unfold mergeAssessment sortedDedup
      simp [List.mem_mergeSort, List.mem_dedup]
    · intro t ht
      unfold mergeAssessment sortedDedup
      simp [List.mem_mergeSort, List.mem_dedup]
      tauto
  · have h1 : (mergeAssessment ideaFix assessFix).relevance_score =
        pyRound 3 (ideaFix.relevance_score * (35 / 100) + assessFix.profit_score / 10 * (65 / 100)) := by
      unfold mergeAssessment
      split <;> split <;> rfl
    rw [h1]
    have h2 : ideaFix.relevance_score * (35 / 100) + assessFix.profit_score / 10 * (65 / 100) =
        673 / 100 := by
      show (4 : ℚ) * (35 / 100) + (82 : ℚ) / 10 * (65 / 100) = 673 / 100
      norm_num
    rw [h2]
    unfold pyRound roundHalfEven
    norm_num

/-- Witness for C6: read off the concrete merged candidate. -/
theorem mergeAssessment_blend_witness :
    "llm_real_pain" ∈ (mergeAssessment ideaFix assessFix).reason_tags :=
  (mergeAssessment_blend.1 ideaFix assessFix).2.2 "llm_real_pain" (by decide)

/-! C10: the candidate cap is clamped below at one. -/

/-- C10 — for every non-empty idea list, a `max_candidates` of zero or
less still selects exactly one candidate for assessment, namely a
top-scoring idea of the list. -/
theorem enrichTargets_clamped (ideas : List IdeaCandidate) (mc : Int)
    (hmc : mc ≤ 0) (hne : ideas ≠ []) :
    ∃ t, enrichTargets ideas mc = [t] ∧ t ∈ ideas ∧
      ∀ i ∈ ideas, i.relevance_score ≤ t.relevance_score := by
  have hmax : (max mc 1).toNat = 1 := by omega
  unfold enrichTargets
  rw [hmax]
  obtain ⟨t, rest, hms⟩ : ∃ t rest, ideas.mergeSort ideaDescLE = t :: rest := by
    cases h : ideas.mergeSort ideaDescLE with
    | nil =>
      have hperm := List.mergeSort_perm ideas ideaDescLE
      rw [h] at hperm
      exact absurd (List.perm_nil.mp hperm.symm) hne
    | cons t rest => exact ⟨t, rest, rfl⟩
  rw [hms]
  refine ⟨t, by simp, ?_, ?_⟩
  · have ht : t ∈ ideas.mergeSort ideaDescLE := by
      rw [hms]; exact List.mem_cons_self _ _
    exact List.mem_mergeSort.mp ht
  · intro i hi
    have hi' : i ∈ t :: rest := by
      rw [← hms]; exact List.mem_mergeSort.mpr hi
    rcases List.mem_cons.mp hi' with h | h
    · exact le_of_eq (by rw [h])
    · have hp := List.sorted_mergeSort ideaDescLE_trans ideaDescLE_total ideas
      rw [hms] at hp
      have hd := (List.pairwise_cons.mp hp).1 i h
      simpa [ideaDescLE] using hd

/-- Witness for C10: two ideas, `max_candidates = 0`. -/
theorem enrichTargets_clamped_witness :
    ∃ t, enrichTargets [ideaFix2, ideaFix] 0 = [t] ∧ t ∈ [ideaFix2, ideaFix] ∧
      ∀ i ∈ [ideaFix2, ideaFix], i.relevance_score ≤ t.relevance_score :=
  enrichTargets_clamped [ideaFix2, ideaFix] 0 (by decide) (by decide)

/-! C4: a per-candidate network failure is fatal to the whole batch. -/

/-- Assessing any candidate whose post is found propagates the
`RuntimeError` of the exhausted retry loop through the whole batch. -/
theorem assessTargets_netFail_error (posts : List RedditPost) (t : IdeaCandidate)
    (rest : List IdeaCandidate) (p : RedditPost)
    (hfind : postById posts t.post_id = some p) :
    assessTargets assessNetFail posts (t :: rest) =
      .error ⟨"RuntimeError", "Gemini request failed."⟩ := by
  unfold assessTargets
  rw [List.mapM_cons]
  rw [hfind]
  rfl

/-- C4 — evaluating the code at the failing input: when every retry of
`_generate_content` fails with a transport error, the `RuntimeError` it
raises escapes `enrich_ideas_with_gemini` unhandled, aborting the whole
batch instead of leaving the candidate unmodified. -/
theorem enrich_network_failure_aborts :
    generate_content 3 (fun _ => .error ⟨"URLError", "connection refused"⟩) =
      .error ⟨"RuntimeError", "Gemini request failed."⟩ ∧
    enrich_ideas_with_gemini assessNetFail [ideaFix, ideaFix2] [postFix, postFix2]
        (some ⟨true, "key", "gemini-2.5-flash-lite", 1 / 5, 2, 20⟩) =
      .error ⟨"RuntimeError", "Gemini request failed."⟩ := by
  refine ⟨rfl, ?_⟩
  have hlen : (enrichTargets [ideaFix, ideaFix2] 2).length = 2 := by
    unfold enrichTargets
    rw [List.length_take, List.length_mergeSort]
    rfl
  obtain ⟨t, rest, htr⟩ : ∃ t rest, enrichTargets [ideaFix, ideaFix2] 2 = t :: rest := by
    cases h : enrichTargets [ideaFix, ideaFix2] 2 with
    | nil => rw [h] at hlen; simp at hlen
    | cons a b => exact ⟨a, b, rfl⟩
  have hmem : t ∈ [ideaFix, ideaFix2] := by
    have ht : t ∈ enrichTargets [ideaFix, ideaFix2] 2 := by
      rw [htr]; exact List.mem_cons_self _ _
    unfold enrichTargets at ht
    exact List.mem_mergeSort.mp (List.mem_of_mem_take ht)
  have hfind : ∃ p, postById [postFix, postFix2] t.post_id = some p := by
    simp only [List.mem_cons, List.mem_singleton, List.not_mem_nil, or_false] at hmem
    rcases hmem with rfl | rfl
    · exact ⟨postFix, rfl⟩
    · exact ⟨postFix2, rfl⟩
  obtain ⟨p, hp⟩ := hfind
  unfold enrich_ideas_with_gemini
  rw [show ([ideaFix, ideaFix2] : List IdeaCandidate).isEmpty = false from rfl]
  simp only [Bool.false_eq_true, if_false, Bool.not_true]
  rw [htr, assessTargets_netFail_error [postFix, postFix2] t rest p hp]

/-! C8: the problem-summary fallback. -/

/-- Counterexample for C8 — on a non-empty body with no pain-signal
sentence whose first split piece is empty, the code falls back to the
title, while the claim's "first non-empty sentence" rule yields the
second piece. -/
theorem problemSummary_counterexample :
    derive_problem_summary postBangFix = "TitleX" ∧
    claimProblemSummary postBangFix = "Great weather today" ∧
    derive_problem_summary postBangFix ≠ claimProblemSummary postBangFix := by
  refine ⟨by decide, by decide, by decide⟩

/-- C8 as amended — `derive_problem_summary` returns: the first sentence
of the body (split on `.`, `!`, `?`, newline) containing a pain signal,
truncated to 220 characters; if the body is empty the title; otherwise,
when no sentence contains a pain signal, the FIRST sentence of the split
if it is non-empty after stripping, else the title, truncated to 220. -/
theorem derive_problem_summary_eq_amended (post : RedditPost) :
    derive_problem_summary post = amendedProblemSummary post := by
  unfold derive_problem_summary amendedProblemSummary
  by_cases h1 : pyStrip post.selftext.data = []
  · simp [h1]
  · simp only [h1, if_false]
    cases h2 : findPainSentence (splitSentences (pyStrip post.selftext.data)) with
    | some s => simp
    | none =>
      cases h3 : splitSentences (pyStrip post.selftext.data) with
      | nil => simp [List.headD, pyStrip]
      | cons f rest => simp [List.headD]

/-! C7: extraction filters on the minimum score and sorts stably. -/

/-- Stability of the embedded stable sort: the elements selected by a
predicate on which the comparison holds in both directions keep exactly
their original relative order. -/
theorem mergeSort_filter_stable {α : Type} (le : α → α → Bool)
    (htrans : ∀ (a b c : α), le a b → le b c → le a c)
    (htotal : ∀ (a b : α), le a b || le b a)
    (l : List α) (p : α → Bool) (hp : ∀ a b, p a = true → p b = true → le a b = true) :
    (l.mergeSort le).filter p = l.filter p := by
  have hpair : (l.filter p).Pairwise (fun a b => le a b) :=
    List.pairwise_of_forall_mem_list
      (fun a ha b hb => hp a b (List.of_mem_filter ha) (List.of_mem_filter hb))
  have hsub : List.Sublist (l.filter p) (l.mergeSort le) :=
    List.sublist_mergeSort htrans htotal hpair (List.filter_sublist l)
  have hsub2 : List.Sublist ((l.filter p).filter p) ((l.mergeSort le).filter p) := hsub.filter p
  have hself : (l.filter p).filter p = l.filter p :=
    List.filter_eq_self.mpr (fun a ha => List.of_mem_filter ha)
  rw [hself] at hsub2
  have hperm : List.Perm ((l.mergeSort le).filter p) (l.filter p) :=
    (List.mergeSort_perm l le).filter p
  exact (hsub2.eq_of_length hperm.length_eq.symm).symm

/-- C7 — `extract_ideas` yields exactly one idea for each post scoring at
least the minimum and none for the rest (the permutation), the result is
ordered by relevance score descending (the pairwise bound), and ties keep
the posts' original fetch order (the filter identity at every score). -/
theorem extract_ideas_spec (score : RedditPost → ℚ × List String) (minScore : ℚ)
    (posts : List RedditPost) :
    (extract_ideas score minScore posts).Perm
        ((posts.filter (fun p => decide (minScore ≤ (score p).1))).map (mkIdeaCandidate score)) ∧
    (extract_ideas score minScore posts).Pairwise
        (fun a b => b.relevance_score ≤ a.relevance_score) ∧
    ∀ q : ℚ,
      (extract_ideas score minScore posts).filter (fun i => decide (i.relevance_score = q)) =
        ((posts.filter (fun p => decide (minScore ≤ (score p).1))).map
            (mkIdeaCandidate score)).filter (fun i => decide (i.relevance_score = q)) := by
  have hfilter : posts.filter (fun p => !decide ((score p).1 < minScore)) =
      posts.filter (fun p => decide (minScore ≤ (score p).1)) := by
    apply List.filter_congr
    intro a _
    by_cases hx : (score a).1 < minScore
    · simp [hx, not_le.mpr hx]
    · simp [hx, not_lt.mp hx]
  refine ⟨?_, ?_, ?_⟩
  · unfold extract_ideas
    rw [hfilter]
    exact List.mergeSort_perm _ _
  · have hp := List.sorted_mergeSort ideaDescLE_trans ideaDescLE_total
      ((posts.filter (fun p => !decide ((score p).1 < minScore))).map (mkIdeaCandidate score))
    unfold extract_ideas
    exact hp.imp (fun h => by simpa [ideaDescLE] using h)
  · intro q
    unfold extract_ideas
    rw [hfilter]
    exact mergeSort_filter_stable ideaDescLE ideaDescLE_trans ideaDescLE_total _ _
      (by
        intro a b ha hb
        simp only [decide_eq_true_eq] at ha hb
        simp [ideaDescLE, ha, hb])

/-! C9: the idea round-trip through the store. -/

/-- `splitComma` of a comma-free list is that single piece. -/
theorem splitComma_commaFree (l : List Char) (h : ',' ∉ l) : splitComma l = [l] := by
  induction l with
  | nil => rfl
  | cons c rest ih =>
    have hc : ¬c = ',' := fun e => h (e ▸ List.mem_cons_self _ _)
    have h' : ',' ∉ rest := fun hm => h (List.mem_cons_of_mem _ hm)
    simp only [splitComma, if_neg hc, ih h']
    rfl

/-- `splitComma` recovers a comma-free piece before a comma. -/
theorem splitComma_append (x t : List Char) (hx : ',' ∉ x) :
    splitComma (x ++ ',' :: t) = x :: splitComma t := by
  induction x with
  | nil => simp [splitComma]
  | cons c rest ih =>
    have hc : ¬c = ',' := fun e => hx (e ▸ List.mem_cons_self _ _)
    have h' : ',' ∉ rest := fun hm => hx (List.mem_cons_of_mem _ hm)
    rw [List.cons_append]
    show (if c = ',' then [] :: splitComma (rest ++ ',' :: t)
      else consHead c (splitComma (rest ++ ',' :: t))) = _
    rw [if_neg hc, ih h']
    rfl

/-- Splitting the comma-join of non-empty comma-free tags recovers the
tags exactly. -/
theorem tags_roundtrip (ts : List String)
    (h : ∀ t ∈ ts, t ≠ "" ∧ ',' ∉ t.data) :
    ((splitComma (joinComma (ts.map String.data))).filter (fun t => t ≠ [])).map String.mk =
      ts := by
  induction ts with
  | nil => rfl
  | cons x rest ih =>
    have hx := h x (List.mem_cons_self _ _)
    have hne : x.data ≠ [] := by
      intro hd
      apply hx.1
      cases x with
      | mk d => cases hd; rfl
    cases rest with
    | nil =>
      rw [show joinComma ([x].map String.data) = x.data from rfl]
      rw [splitComma_commaFree x.data hx.2]
      simp only [List.filter, hne, decide_not, ne_eq, decide_eq_true_eq]
      simp [hne]
    | cons y rest2 =>
      have hrest := ih (fun t ht => h t (List.mem_cons_of_mem _ ht))
      rw [show joinComma ((x :: y :: rest2).map String.data) =
          x.data ++ ',' :: joinComma ((y :: rest2).map String.data) from rfl]
      rw [splitComma_append _ _ hx.2]
      rw [List.filter_cons_of_pos (by simp [hne])]
      rw [List.map_cons]
      rw [hrest]

/-- The upserted row is present after the upsert. -/
theorem mem_upsertOneIdea (rows : List IdeaRow) (row : IdeaRow) :
    row ∈ upsertOneIdea rows row := by
  unfold upsertOneIdea
  split
  · rename_i hany
    rw [List.any_eq_true] at hany
    obtain ⟨r, hr, hid⟩ := hany
    exact List.mem_map.mpr ⟨r, hr, if_pos hid⟩
  · exact List.mem_append_right _ (List.mem_singleton.mpr rfl)

/-- C9 as amended — an idea whose reason tags are non-empty and comma-free
(as all tags produced by the extractor and the enrichment normaliser are),
written via the idea upsert, is recovered field for field by the windowed
query for every floor at or below its creation time. -/
theorem idea_roundtrip (s : Store) (idea : IdeaCandidate) (extracted floor : Int)
    (hfloor : floor ≤ idea.created_utc)
    (htags : ∀ t ∈ idea.reason_tags, t ≠ "" ∧ ',' ∉ t.data) :
    idea ∈ get_ideas_since (upsert_ideas s [idea] extracted) floor := by
  have hback : rowToIdea (ideaToRow idea extracted) = idea := by
    have ht := tags_roundtrip idea.reason_tags htags
    simp only [ne_eq, decide_not] at ht
    cases idea
    simp only [rowToIdea, ideaToRow] at ht ⊢
    simp [ht]
  have hrow : ideaToRow idea extracted ∈ (upsert_ideas s [idea] extracted).ideas := by
    unfold upsert_ideas
    simp only [List.foldl]
    exact mem_upsertOneIdea _ _
  have hfil : ideaToRow idea extracted ∈
      (upsert_ideas s [idea] extracted).ideas.filter (fun r => decide (floor ≤ r.created_utc)) :=
    List.mem_filter.mpr ⟨hrow, by simpa [ideaToRow] using hfloor⟩
  have hms : ideaToRow idea extracted ∈
      ((upsert_ideas s [idea] extracted).ideas.filter
        (fun r => decide (floor ≤ r.created_utc))).mergeSort ideaRowDescLE :=
    List.mem_mergeSort.mpr hfil
  unfold get_ideas_since
  exact List.mem_map.mpr ⟨ideaToRow idea extracted, hms, hback⟩

/-- Witness for C9: a concrete idea with a well-formed tag list. -/
theorem idea_roundtrip_witness :
    ideaFix ∈ get_ideas_since (upsert_ideas Store.empty [ideaFix] 1000) 900 :=
  idea_roundtrip Store.empty ideaFix 1000 900 (by decide) (by decide)

/-- Counterexample for C9 as frozen — an idea record whose tag contains a
comma is not recovered field for field: the tag splits in two on the way
back out of the store. -/
theorem idea_roundtrip_counterexample :
    ideaCommaFix.reason_tags = ["a,b"] ∧
    (get_ideas_since (upsert_ideas Store.empty [ideaCommaFix] 0) 0).map
        (fun i => i.reason_tags) = [["a", "b"]] ∧
    ideaCommaFix ∉ get_ideas_since (upsert_ideas Store.empty [ideaCommaFix] 0) 0 := by
  have hg : get_ideas_since (upsert_ideas Store.empty [ideaCommaFix] 0) 0 =
      [rowToIdea (ideaToRow ideaCommaFix 0)] := by
    show (([ideaToRow ideaCommaFix 0]).mergeSort ideaRowDescLE).map rowToIdea = _
    rw [List.mergeSort_singleton]
    rfl
  refine ⟨rfl, by rw [hg]; rfl, ?_⟩
  rw [hg]
  intro hmem
  rw [List.mem_singleton] at hmem
  have htag := congrArg (fun i => i.reason_tags) hmem
  exact absurd htag (by decide)

/-! Pipeline helper lemmas. -/

/-- The freshly inserted `started` row never matches the success filter. -/
theorem hasSuccess_start_run (s : Store) (p d p' d' : String) (t : Int) :
    has_successful_run_on_day (start_run s p d t).1 p' d' =
      has_successful_run_on_day s p' d' := by
  unfold has_successful_run_on_day start_run
  simp [List.any_append, show (("started" : String) == "success") = false from by decide]

/-- The freshly inserted `started` row never affects the latest-success
lookup. -/
theorem latestSuccess_start_run (s : Store) (p d p' : String) (t : Int) :
    get_latest_successful_run (start_run s p d t).1 p' = get_latest_successful_run s p' := by
  unfold get_latest_successful_run start_run
  simp [List.filter_append, show (("started" : String) == "success") = false from by decide]

/-- Every row of the log has an id below the next `AUTOINCREMENT` id. -/
theorem runId_lt_next (l : List RunRow) (r : RunRow) (hr : r ∈ l) :
    r.run_id < (l.foldr (fun x acc => max x.run_id acc) 0) + 1 := by
  induction l with
  | nil => cases hr
  | cons a as ih =>
    rcases List.mem_cons.mp hr with rfl | h
    · exact Nat.lt_succ_of_le (Nat.le_max_left _ _)
    · exact Nat.lt_succ_of_le (Nat.le_trans (Nat.le_of_lt_succ (ih h)) (Nat.le_max_right _ _))

/-- Closing the run whose row was appended with a fresh id updates exactly
that row: old rows are untouched. -/
theorem finish_run_append (s st : Store) (p d : String) (t ft : Int)
    (status : String) (fp ei wi : Nat) (es : Bool) (msg : String)
    (hlog : st.runLogs =
      s.runLogs ++ [⟨nextRunId s, p, d, t, none, "started", 0, 0, 0, false, ""⟩]) :
    (finish_run st (nextRunId s) status ft fp ei wi es msg).runLogs =
      s.runLogs ++ [⟨nextRunId s, p, d, t, some ft, status, fp, ei, wi, es, msg⟩] := by
  unfold finish_run
  dsimp only
  rw [hlog, List.map_append]
  congr 1
  · refine (List.map_congr_left ?_).trans (List.map_id' _)
    intro r hr
    have hlt : r.run_id < nextRunId s := runId_lt_next s.runLogs r hr
    rw [if_neg (by simp only [beq_iff_eq]; omega)]
  · simp

/-- The run body only touches the posts and ideas tables, never the run
log. -/
theorem runBody_runLogs (cfg : AppConfig) (world : World) (np : Bool) (p : String)
    (now : PyTime) (floor : Int) (s1 : Store) :
    (runBody cfg world np p now floor s1).2.1.runLogs = s1.runLogs := by
  unfold runBody
  cases hf : fetchAll world.client cfg.subreddits floor cfg.max_posts_per_subreddit with
  | mk evs r =>
    cases r with
    | error e => rfl
    | ok posts =>
      dsimp only
      unfold afterFetch upsert_posts upsert_ideas
      dsimp only
      repeat' split
      all_goals rfl

/-- Computing the fetch floor after inserting the `started` row equals the
specification's floor over the original store. -/
theorem effectiveFloor_start_run (s : Store) (p d : String) (t ts lb : Int) :
    effectiveFloor (start_run s p d t).1 p ts lb = specFetchFloor s p ts lb := by
  unfold effectiveFloor specFetchFloor
  rw [latestSuccess_start_run]
  cases get_latest_successful_run s p with
  | none => simp
  | some r =>
    cases hf : r.run_finished_utc with
    | none => simp [hf]
    | some v => simp [hf]

/-! C1: same-day idempotency. -/

/-- C1 — for every period in {daily, weekly} and every UTC day string d,
if the run log already holds a success for that period and day, a run at
any time whose UTC day is d only appends one run row closed as
`skipped_same_day`, returns zero counts with no email, and performs no
external call and no change to the posts and ideas tables. -/
theorem run_once_same_day_skip (cfg : AppConfig) (period d : String) (world : World)
    (np : Bool) (now : PyTime) (s : Store)
    (hper : period = "daily" ∨ period = "weekly")
    (hday : now.day = d)
    (hprev : has_successful_run_on_day s period d = true) :
    run_once cfg period world np now s =
      ⟨{ s with runLogs := s.runLogs ++
          [⟨nextRunId s, period, d, now.ts, some now.ts, "skipped_same_day", 0, 0, 0, false,
            "Skipped duplicate " ++ period ++ " run for UTC day " ++ d ++ "."⟩] },
        [],
        .ok ⟨"skipped_same_day", 0, 0, 0, now.ts, now.ts, none, none, false,
          "Skipped duplicate " ++ period ++ " run for UTC day " ++ d ++ "."⟩⟩ := by
  subst hday
  have hnorm : normalizePeriod period = period := by
    rcases hper with rfl | rfl <;> rfl
  have hguard : (period == "daily" || period == "weekly") = true := by
    rcases hper with rfl | rfl <;> rfl
  have hskip : has_successful_run_on_day (start_run s period now.day now.ts).1 period now.day =
      true := by
    rw [hasSuccess_start_run, hprev]
  have hstore := finish_run_append s (start_run s period now.day now.ts).1 period now.day
    now.ts now.ts "skipped_same_day" 0 0 0 false
    ("Skipped duplicate " ++ period ++ " run for UTC day " ++ now.day ++ ".") rfl
  simp only [run_once, hnorm, hguard, Bool.not_true, Bool.false_eq_true, if_false, hskip,
    if_true]
  rw [show (finish_run (start_run s period now.day now.ts).1
      (start_run s period now.day now.ts).2 "skipped_same_day" now.ts 0 0 0 false
      ("Skipped duplicate " ++ period ++ " run for UTC day " ++ now.day ++ ".")) =
    { s with runLogs := s.runLogs ++
        [⟨nextRunId s, period, now.day, now.ts, some now.ts, "skipped_same_day", 0, 0, 0, false,
          "Skipped duplicate " ++ period ++ " run for UTC day " ++ now.day ++ "."⟩] } from
    congrArg (fun l => Store.mk s.posts s.ideas l) hstore]

/-- Witness for C1: a store holding a success for (daily, 2026-02-12) and
a second run on that day. -/
theorem run_once_same_day_skip_witness :
    (run_once cfgFix "daily" worldFix true timeFix storePrevFix).trace = ([] : List Event) ∧
    (run_once cfgFix "daily" worldFix true timeFix storePrevFix).result =
      .ok ⟨"skipped_same_day", 0, 0, 0, 1000, 1000, none, none, false,
        "Skipped duplicate daily run for UTC day 2026-02-12."⟩ := by
  have h := run_once_same_day_skip cfgFix "daily" "2026-02-12" worldFix true timeFix storePrevFix
    (Or.inl rfl) rfl (by decide)
  exact ⟨congrArg RunOutcome.trace h, congrArg RunOutcome.result h⟩

/-! C5: failure semantics. -/

/-- C5 — for every non-skipped run whose body raises (during fetching,
persisting, report writing or notification), the run row created at run
start is closed exactly once as `failed` with zero counts, no email, and
a message naming the exception, and the original exception is re-raised
to the caller: the final log is the old log plus that single failed row. -/
theorem run_once_failure_closes_run (cfg : AppConfig) (period : String) (world : World)
    (np : Bool) (now : PyTime) (s : Store) (evs : List Event) (s2 : Store) (e : Exc)
    (hper : period = "daily" ∨ period = "weekly")
    (hns : has_successful_run_on_day s period now.day = false)
    (hbody : runBody cfg world np period now
        (specFetchFloor s period now.ts (max cfg.lookback_hours 1 * 60 * 60))
        (start_run s period now.day now.ts).1 = (evs, s2, Except.error e)) :
    (run_once cfg period world np now s).result = .error e ∧
    (run_once cfg period world np now s).store.runLogs =
      s.runLogs ++ [⟨nextRunId s, period, now.day, now.ts, some now.ts, "failed", 0, 0, 0,
        false, e.excName ++ ": " ++ e.excText⟩] := by
  have hnorm : normalizePeriod period = period := by
    rcases hper with rfl | rfl <;> rfl
  have hguard : (period == "daily" || period == "weekly") = true := by
    rcases hper with rfl | rfl <;> rfl
  have hskip : has_successful_run_on_day (start_run s period now.day now.ts).1 period now.day =
      false := by
    rw [hasSuccess_start_run, hns]
  have hlogs : s2.runLogs =
      s.runLogs ++ [⟨nextRunId s, period, now.day, now.ts, none, "started", 0, 0, 0, false, ""⟩] := by
    have h2 := runBody_runLogs cfg world np period now
      (specFetchFloor s period now.ts (max cfg.lookback_hours 1 * 60 * 60))
      (start_run s period now.day now.ts).1
    rw [hbody] at h2
    exact h2
  simp only [run_once, hnorm, hguard, Bool.not_true, Bool.false_eq_true, if_false, hskip]
  rw [effectiveFloor_start_run, hbody]
  exact ⟨rfl, finish_run_append s s2 period now.day now.ts now.ts "failed" 0 0 0 false
    (e.excName ++ ": " ++ e.excText) hlogs⟩

/-- Witness for C5: the client whose fetch raises `HTTPError: boom`. -/
theorem run_once_failure_closes_run_witness :
    (run_once cfgFix "daily" worldFailFix false timeFix2 storePrevFix).result =
      .error ⟨"HTTPError", "boom"⟩ ∧
    (run_once cfgFix "daily" worldFailFix false timeFix2 storePrevFix).store.runLogs =
      storePrevFix.runLogs ++ [⟨nextRunId storePrevFix, "daily", "2026-02-13", 2000, some 2000,
        "failed", 0, 0, 0, false, "HTTPError: boom"⟩] :=
  run_once_failure_closes_run cfgFix "daily" worldFailFix false timeFix2 storePrevFix
    [Event.fetchCall "vibecoding" 1000 10]
    (start_run storePrevFix "daily" "2026-02-13" 2000).1 ⟨"HTTPError", "boom"⟩
    (Or.inl rfl) (by decide) rfl

/-! Event-trace lemmas. -/

/-- Every event the fetch loop emits is a fetch call with the given floor
and cap. -/
theorem fetchAll_events (client : String → Int → Int → Except Exc (List RedditPost))
    (subs : List String) (floor m : Int) :
    ∀ ev ∈ (fetchAll client subs floor m).1, ∃ sr, ev = Event.fetchCall sr floor m := by
  induction subs with
  | nil =>
    intro ev h
    simp [fetchAll] at h
  | cons sr rest ih =>
    intro ev h
    unfold fetchAll at h
    cases hc : client sr floor m with
    | error e =>
      rw [hc] at h
      simp only [List.mem_singleton] at h
      exact ⟨sr, h⟩
    | ok ps =>
      rw [hc] at h
      simp only [List.mem_cons] at h
      rcases h with rfl | h
      · exact ⟨sr, rfl⟩
      · exact ih ev h

/-- When the whole fetch loop succeeds, it emits exactly one fetch call per
configured subreddit, in order, all with the same floor and cap. -/
theorem fetchAll_ok_events (client : String → Int → Int → Except Exc (List RedditPost))
    (subs : List String) (floor m : Int) (ps : List RedditPost)
    (h : (fetchAll client subs floor m).2 = .ok ps) :
    (fetchAll client subs floor m).1 = subs.map (fun sr => Event.fetchCall sr floor m) := by
  induction subs generalizing ps with
  | nil => rfl
  | cons sr rest ih =>
    unfold fetchAll at h ⊢
    cases hc : client sr floor m with
    | error e =>
      rw [hc] at h
      simp at h
    | ok qs =>
      rw [hc] at h
      dsimp only at h ⊢
      cases h2 : (fetchAll client rest floor m).2 with
      | error e =>
        rw [h2] at h
        simp at h
      | ok r =>
        rw [List.map_cons]
        rw [ih r h2]

/-- The post-fetch part of the body performs no fetch call. -/
theorem afterFetch_no_fetch (cfg : AppConfig) (world : World) (np : Bool) (p : String)
    (now : PyTime) (floor : Int) (posts : List RedditPost) (s1 : Store)
    (sr : String) (u m : Int) :
    Event.fetchCall sr u m ∉ (afterFetch cfg world np p now floor posts s1).1 := by
  unfold afterFetch
  dsimp only
  repeat' split
  all_goals simp

/-- The post-fetch part of the body performs no enrichment call. -/
theorem afterFetch_no_enrich (cfg : AppConfig) (world : World) (np : Bool) (p : String)
    (now : PyTime) (floor : Int) (posts : List RedditPost) (s1 : Store) :
    Event.enrichCall ∉ (afterFetch cfg world np p now floor posts s1).1 := by
  unfold afterFetch
  dsimp only
  repeat' split
  all_goals simp

/-- Any fetch call in the body's trace carries exactly the computed floor
and the configured per-subreddit cap. -/
theorem runBody_fetchCall_mem (cfg : AppConfig) (world : World) (np : Bool) (p : String)
    (now : PyTime) (floor : Int) (s1 : Store) (sr : String) (u m : Int)
    (h : Event.fetchCall sr u m ∈ (runBody cfg world np p now floor s1).1) :
    u = floor ∧ m = cfg.max_posts_per_subreddit := by
  unfold runBody at h
  cases hf : fetchAll world.client cfg.subreddits floor cfg.max_posts_per_subreddit with
  | mk fevs r =>
    rw [hf] at h
    have hall : ∀ ev ∈ fevs, ∃ sr', ev = Event.fetchCall sr' floor cfg.max_posts_per_subreddit := by
      intro ev hev
      have := fetchAll_events world.client cfg.subreddits floor cfg.max_posts_per_subreddit ev
      rw [hf] at this
      exact this hev
    cases r with
    | error e =>
      dsimp only at h
      obtain ⟨sr', heq⟩ := hall _ h
      cases heq
      exact ⟨rfl, rfl⟩
    | ok posts =>
      dsimp only at h
      rcases List.mem_append.mp h with h1 | h2
      · obtain ⟨sr', heq⟩ := hall _ h1
        cases heq
        exact ⟨rfl, rfl⟩
      · exact absurd h2 (afterFetch_no_fetch cfg world np p now floor posts s1 sr u m)

/-- The body never performs an enrichment call. -/
theorem runBody_no_enrich (cfg : AppConfig) (world : World) (np : Bool) (p : String)
    (now : PyTime) (floor : Int) (s1 : Store) :
    Event.enrichCall ∉ (runBody cfg world np p now floor s1).1 := by
  unfold runBody
  cases hf : fetchAll world.client cfg.subreddits floor cfg.max_posts_per_subreddit with
  | mk fevs r =>
    have hall : ∀ ev ∈ fevs, ∃ sr', ev = Event.fetchCall sr' floor cfg.max_posts_per_subreddit := by
      intro ev hev
      have := fetchAll_events world.client cfg.subreddits floor cfg.max_posts_per_subreddit ev
      rw [hf] at this
      exact this hev
    cases r with
    | error e =>
      intro h
      obtain ⟨sr', heq⟩ := hall _ h
      cases heq
    | ok posts =>
      intro h
      dsimp only at h
      rcases List.mem_append.mp h with h1 | h2
      · obtain ⟨sr', heq⟩ := hall _ h1
        cases heq
      · exact absurd h2 (afterFetch_no_enrich cfg world np p now floor posts s1)

/-- When the body succeeds it performed one fetch call per configured
subreddit, with the computed floor and cap. -/
theorem runBody_ok_fetch_cover (cfg : AppConfig) (world : World) (np : Bool) (p : String)
    (now : PyTime) (floor : Int) (s1 : Store) (evs : List Event) (s2 : Store) (b : BodyOk)
    (hbody : runBody cfg world np p now floor s1 = (evs, s2, .ok b)) :
    ∀ sr ∈ cfg.subreddits,
      Event.fetchCall sr floor cfg.max_posts_per_subreddit ∈ evs := by
  unfold runBody at hbody
  cases hf : fetchAll world.client cfg.subreddits floor cfg.max_posts_per_subreddit with
  | mk fevs r =>
    rw [hf] at hbody
    cases r with
    | error e => simp at hbody
    | ok posts =>
      dsimp only at hbody
      have hevs : evs = fevs ++ (afterFetch cfg world np p now floor posts s1).1 :=
        (congrArg (fun x : List Event × Store × Except Exc BodyOk => x.1) hbody).symm
      have hfok : (fetchAll world.client cfg.subreddits floor cfg.max_posts_per_subreddit).2 =
          .ok posts := by
        rw [hf]
      have hmap := fetchAll_ok_events world.client cfg.subreddits floor
        cfg.max_posts_per_subreddit posts hfok
      rw [hf] at hmap
      dsimp only at hmap
      intro sr hsr
      rw [hevs]
      apply List.mem_append_left
      rw [hmap]
      exact List.mem_map.mpr ⟨sr, hsr, rfl⟩

/-! C2: the incremental fetch floor. -/

/-- C2 as amended — in every non-skipped run, with the lookback window
clamped below at one hour (`max(lookbackHours, 1) * 3600` seconds, as the
code computes it): every fetch call carries the floor the specification
words — the latest success's finish time `T` when `now - T` is within the
window, else `now` minus the window — and when the run returns normally,
every configured forum received exactly such a call. -/
theorem run_once_fetch_floor (cfg : AppConfig) (period : String) (world : World) (np : Bool)
    (now : PyTime) (s : Store)
    (hper : period = "daily" ∨ period = "weekly")
    (hns : has_successful_run_on_day s period now.day = false) :
    (∀ ev ∈ (run_once cfg period world np now s).trace, ∀ sr u m,
        ev = Event.fetchCall sr u m →
        u = specFetchFloor s period now.ts (max cfg.lookback_hours 1 * 60 * 60)) ∧
    (∀ r, (run_once cfg period world np now s).result = Except.ok r →
        ∀ sr ∈ cfg.subreddits,
          Event.fetchCall sr
              (specFetchFloor s period now.ts (max cfg.lookback_hours 1 * 60 * 60))
              cfg.max_posts_per_subreddit ∈
            (run_once cfg period world np now s).trace) := by
  have hnorm : normalizePeriod period = period := by
    rcases hper with rfl | rfl <;> rfl
  have hguard : (period == "daily" || period == "weekly") = true := by
    rcases hper with rfl | rfl <;> rfl
  have hskip : has_successful_run_on_day (start_run s period now.day now.ts).1 period now.day =
      false := by
    rw [hasSuccess_start_run, hns]
  simp only [run_once, hnorm, hguard, Bool.not_true, Bool.false_eq_true, if_false, hskip]
  rw [effectiveFloor_start_run]
  cases hbody : runBody cfg world np period now
      (specFetchFloor s period now.ts (max cfg.lookback_hours 1 * 60 * 60))
      (start_run s period now.day now.ts).1 with
  | mk evs rest =>
    have h1 : (runBody cfg world np period now
        (specFetchFloor s period now.ts (max cfg.lookback_hours 1 * 60 * 60))
        (start_run s period now.day now.ts).1).1 = evs := by
      rw [hbody]
    cases rest with
    | mk s2 r =>
      cases r with
      | error e =>
        dsimp only
        constructor
        · intro ev hev sr u m heq
          subst heq
          exact (runBody_fetchCall_mem cfg world np period now _ _ sr u m
            (h1 ▸ hev)).1
        · intro r hr
          exact absurd hr (by simp)
      | ok b =>
        dsimp only
        constructor
        · intro ev hev sr u m heq
          subst heq
          exact (runBody_fetchCall_mem cfg world np period now _ _ sr u m
            (h1 ▸ hev)).1
        · intro r _ sr hsr
          exact runBody_ok_fetch_cover cfg world np period now _ _ evs s2 b hbody sr hsr

/-- Witness for C2: a prior success finished at 1000 and a run starting at
2000 with a 168-hour window fetch at floor 1000. -/
theorem run_once_fetch_floor_witness :
    (1000 : Int) =
      specFetchFloor storePrevFix "daily" timeFix2.ts (max cfgFix.lookback_hours 1 * 60 * 60) :=
  (run_once_fetch_floor cfgFix "daily" worldFix false timeFix2 storePrevFix
      (Or.inl rfl) (by decide)).1
    (Event.fetchCall "vibecoding" 1000 10) (by decide) "vibecoding" 1000 10 rfl

/-- Counterexample for C2 as frozen — with `lookback_hours = 0` the claim's
unclamped window `lookbackHours * 3600 = 0` demands the default floor
`now - 0 = 2000`, but the code clamps the window to one hour and fetches
at the prior finish time 1000. -/
theorem run_once_fetch_floor_counterexample :
    Event.fetchCall "vibecoding" 1000 10 ∈
      (run_once cfgLb0Fix "daily" worldFix false timeFix2 storePrevFix).trace ∧
    claimFetchFloor storePrevFix "daily" 2000 0 = 2000 ∧
    (1000 : Int) ≠ claimFetchFloor storePrevFix "daily" 2000 0 := by
  refine ⟨by decide, by decide, by decide⟩

/-! C3: the pipeline never invokes the LLM merger. -/

/-- C3 as amended — `run_once` never invokes the LLM enrichment merger:
no run's trace contains an enrichment call, so the ideas handed to report
generation carry only the heuristic relevance scores read back from the
store. -/
theorem run_once_never_enriches (cfg : AppConfig) (period : String) (world : World)
    (np : Bool) (now : PyTime) (s : Store) :
    Event.enrichCall ∉ (run_once cfg period world np now s).trace := by
  unfold run_once
  dsimp only
  split
  · simp
  · split
    · simp
    · split
      · rename_i evs s2 e heq
        intro hmem
        have h1 := congrArg (fun x : List Event × Store × Except Exc BodyOk => x.1) heq
        dsimp only at h1 hmem
        rw [← h1] at hmem
        exact runBody_no_enrich _ _ _ _ _ _ _ hmem
      · rename_i evs s2 b heq
        intro hmem
        have h1 := congrArg (fun x : List Event × Store × Except Exc BodyOk => x.1) heq
        dsimp only at h1 hmem
        rw [← h1] at hmem
        exact runBody_no_enrich _ _ _ _ _ _ _ hmem

/-- Witness for C3 as amended: the enrichment-enabled fixture run performs
no enrichment call. -/
theorem run_once_never_enriches_witness :
    Event.enrichCall ∉ (run_once cfgGemFix "daily" worldFix true timeFix Store.empty).trace :=
  run_once_never_enriches cfgGemFix "daily" worldFix true timeFix Store.empty

/-- Counterexample for C3 as frozen — a run with the enrichment
configuration enabled and credentialed completes normally, writes its
report, and still performs no enrichment call between persisting and
querying (or anywhere else). -/
theorem run_once_no_enrich_counterexample :
    (cfgGemFix.gemini.map (fun g => g.enabled && g.api_key != "")) = some true ∧
    (run_once cfgGemFix "daily" worldFix true timeFix Store.empty).result.isOk = true ∧
    ((run_once cfgGemFix "daily" worldFix true timeFix Store.empty).trace.countP
      (fun ev => match ev with
        | Event.reportWrite _ _ => true
        | _ => false)) = 1 ∧
    Event.enrichCall ∉ (run_once cfgGemFix "daily" worldFix true timeFix Store.empty).trace := by
  refine ⟨by decide, by decide, by decide, by decide⟩

end RedditScan
